import Mathlib

/-!
Shallow embedding of the esprima dispatch layer and its literal classifier.

Sources embedded here:
- src/unnamed/part_000 : the variant of esprima.ts that uses CustomTokenizer,
  isHTML and the html_tags whitelist, and returns an object with the two
  fields tokens and html_tokens.
- src/src/esprima.ts : the variant whose tokenizeC stops scanning early and
  returns a flat token array.

JavaScript string primitives (slice, substring, split, charAt) are modelled
on List Char with the clamping semantics of the ECMAScript operations.
-/

set_option autoImplicit false

/-- Single quote character, written by code point to keep source quoting simple. -/
def squote : Char := Char.ofNat 39

/-- Double quote character. -/
def dquote : Char := Char.ofNat 34

/-- Backtick character, the template literal delimiter. -/
def backtick : Char := Char.ofNat 96

/-- Backslash character, the string escape introducer. -/
def backslash : Char := Char.ofNat 92

/-- Resolution of one JavaScript slice index against a string length:
a negative index is taken from the end and clamped at 0, a non-negative
index is clamped at the length. -/
def jsIndex (len : Nat) (i : Int) : Nat :=
  if i < 0 then ((len : Int) + i).toNat else min i.toNat len

/-- JavaScript String.prototype.slice with two explicit arguments: the
characters from the resolved start index (inclusive) to the resolved end
index (exclusive), empty when the start is not strictly before the end. -/
def jsSlice (s : String) (start fin : Int) : String :=
  let l := s.toList
  String.mk ((l.take (jsIndex l.length fin)).drop (jsIndex l.length start))

/-- JavaScript s.substring(0, 1): the first character as a string, or the
empty string when s is empty. -/
def substring01 (s : String) : String :=
  String.mk (s.toList.take 1)

/-- JavaScript String.prototype.split with a single-character separator:
splits at every occurrence, yielding empty pieces between adjacent
separators and at the ends, and the singleton empty piece on the empty
string. -/
def jsSplit (sep : Char) : List Char → List (List Char)
  | [] => [[]]
  | c :: rest =>
    match jsSplit sep rest with
    | [] => [[c]]
    | g :: gs => if c = sep then [] :: g :: gs else (c :: g) :: gs

/-- Split a string on ASCII spaces, JavaScript style. -/
def splitSpaces (s : String) : List String :=
  (jsSplit ' ' s.toList).map String.mk

/-- Boolean prefix test on character lists. -/
def leadsWith : List Char → List Char → Bool
  | [], _ => true
  | _ :: _, [] => false
  | a :: as, b :: bs => (a == b) && leadsWith as bs

/-- Boolean substring containment on character lists. -/
def containsSub (needle : List Char) : List Char → Bool
  | [] => leadsWith needle []
  | c :: rest => leadsWith needle (c :: rest) || containsSub needle rest

/-- ASCII lowercasing of one character, as String.prototype.toLowerCase and
the regular expression i flag act on the ASCII range used here. -/
def lowerChar (c : Char) : Char :=
  if 'A' ≤ c ∧ c ≤ 'Z' then Char.ofNat (c.toNat + 32) else c

/-- ASCII lowercased character list of a string. -/
def lowerList (s : String) : List Char :=
  s.toList.map lowerChar

/-- The html_tags whitelist of src/unnamed/part_000, in source order. -/
def html_tags : List String :=
  ["a", "abbr", "address", "area", "article", "aside", "audio", "b", "base",
   "bb", "bdo", "blockquote", "body", "br", "button", "canvas", "caption",
   "cite", "code", "col", "colgroup", "command", "datagrid", "datalist",
   "dd", "del", "details", "dfn", "dialog", "div", "dl", "dt", "em", "embed",
   "eventsource", "fieldset", "figcaption", "figure", "footer", "form",
   "h1", "h2", "h3", "h4", "h5", "h6", "head", "header", "hgroup", "hr",
   "html", "i", "iframe", "img", "input", "ins", "kbd", "label", "legend",
   "li", "link", "map", "mark", "menu", "meter", "nav", "noscript", "object",
   "ol", "optgroup", "option", "output", "p", "param", "pre", "progress",
   "q", "rp", "rt", "ruby", "s", "samp", "section", "select", "small",
   "source", "span", "strong", "sub", "sup", "table", "tbody", "td",
   "textarea", "tfoot", "th", "thead", "time", "title", "tr", "track",
   "u", "ul", "var", "video", "wbr"]

/-- The whitelist tags that stand as bare alternatives in the compiled
regular expression: every tag except the first (a, which is preceded by
the prefix <\/? in the pattern) and the last (wbr, which is followed by
the suffix [sS]*> in the pattern). -/
def middleTags : List String :=
  (html_tags.drop 1).dropLast

/-- Match of the regular expression tail [sS]*> at the head of a lowercased
character list: some run of s characters followed by >. -/
def wbrTail : List Char → Bool
  | [] => false
  | c :: rest => if c = '>' then true else if c = 's' then wbrTail rest else false

/-- Existence of a match of wbr[sS]*> anywhere in a lowercased character
list. -/
def wbrScan : List Char → Bool
  | [] => false
  | c :: rest => (leadsWith ("wbr".toList) (c :: rest) && wbrTail ((c :: rest).drop 3)) || wbrScan rest

/-- The isHTML predicate of src/unnamed/part_000.

The source builds the pattern with
new RegExp(of the template literal <\/?${valid_html_tags}[\s\S]*>, flag i)
where valid_html_tags joins html_tags with the regex alternation bar.
Inside a JavaScript template literal the escapes degrade: the sequence
backslash-slash denotes a bare slash and backslash-s / backslash-S denote
the bare letters s and S, so the pattern source that reaches RegExp is
  < /? a | abbr | address | ... | video | wbr [sS]* >   (spaces added here)
with no grouping around the alternation. Alternation binds loosest, so the
compiled regex is the alternation of
  (1) the prefix-shaped branch: < optional-slash a
  (2) every tag other than the first and the last, as a bare substring
  (3) the suffix-shaped branch: wbr, a run of s or S, then >
tested case-insensitively anywhere in the string. This definition is that
alternation, evaluated on the ASCII-lowercased text. -/
def isHTML (str : String) : Bool :=
  let l := lowerList str
  containsSub ("<a".toList) l || containsSub ("</a".toList) l
    || middleTags.any (fun t => containsSub t.toList l)
    || wbrScan l

/-- A token as the tokenizers hand it to the dispatch layer: a type tag and
a value, both strings. -/
structure JsToken where
  type : String
  value : String
deriving DecidableEq, Repr

/-- A getNextToken outcome of the CustomTokenizer used by the tokenizeC of
src/unnamed/part_000: either a token or the empty object it returns for a
token outside the identifier, template, string set (the loop skips those
via the Object.keys length check). End of input, the null outcome, is the
end of the list. -/
inductive P0Tok where
  | tok (type value : String)
  | emptyObj
deriving DecidableEq, Repr

/-- The value returned by the tokenizeC of src/unnamed/part_000: the object
with the two fields tokens and html_tokens. -/
structure CResult where
  tokens : List String
  html_tokens : List String
deriving DecidableEq, Repr

/-- The quote stripping applied to each space-split piece in both tokenizeC
variants: when substring(0,1) is a single or double quote, slice(1, length-1)
removes the first character and the last character. -/
def stripQuote (e : String) : String :=
  if substring01 e = String.mk [squote] ∨ substring01 e = String.mk [dquote] then
    jsSlice e 1 ((e.toList.length : Int) - 1)
  else e

/-- The selector-prefix stripping applied after stripQuote in the String
branch of the part_000 tokenizeC: when substring(0,1) is a dot or a hash,
slice(1, length) removes the first character. -/
def stripDotHash (e : String) : String :=
  if substring01 e = "." ∨ substring01 e = "#" then
    jsSlice e 1 (e.toList.length : Int)
  else e

/-- The delimiter stripping of the String branches: value.slice(1,
value.length - 1), cutting the wrapping quotes esprima keeps on a string
token value (clamping on degenerate lengths). -/
def unwrapString (v : String) : String :=
  jsSlice v 1 ((v.toList.length : Int) - 1)

/-- The delimiter stripping of the Template branches: an opening backtick
and a closing backtick are each dropped only when present, since a template
middle piece may lack either. -/
def unwrapTemplate (v : String) : String :=
  let l := v.toList
  let isOpened : Bool := match l.head? with | some c => c == backtick | none => false
  let isClosed : Bool := match l.getLast? with | some c => c == backtick | none => false
  jsSlice v (if isOpened then 1 else 0)
    (if isClosed then (l.length : Int) - 1 else (l.length : Int))

/-- The word pieces a non-markup string literal contributes in the part_000
tokenizeC: split the unwrapped text on spaces, strip quotes, then strip a
leading dot or hash. -/
def stringPieces (v : String) : List String :=
  (splitSpaces (unwrapString v)).map (fun e => stripDotHash (stripQuote e))

/-- The word pieces a non-markup template literal contributes in the
part_000 tokenizeC: split the unwrapped text on spaces and strip quotes
(no selector-prefix stripping in this branch). -/
def templatePieces (v : String) : List String :=
  (splitSpaces (unwrapTemplate v)).map stripQuote

/-- Application of the optional caller-supplied transform. -/
def applyDelegate (d : Option (JsToken → JsToken)) (t : JsToken) : JsToken :=
  match d with
  | some f => f t
  | none => t

/-- The scanning loop of the tokenizeC in src/unnamed/part_000, over the
stream of CustomTokenizer outcomes. Empty objects are skipped; a String or
Template token is unwrapped and routed whole to html_tokens when isHTML
accepts it, else split into word pieces; any other token has its value
captured first, the transform is then run and its result discarded, and the
captured value is pushed. The loop never stops early except at end of
stream. -/
def tokenizeCLoop : List P0Tok → Option (JsToken → JsToken) → CResult
  | [], _ => { tokens := [], html_tokens := [] }
  | P0Tok.emptyObj :: rest, d => tokenizeCLoop rest d
  | P0Tok.tok ty v :: rest, d =>
    if ty = "String" then
      let u := unwrapString v
      if isHTML u then
        let r := tokenizeCLoop rest d
        { tokens := r.tokens, html_tokens := u :: r.html_tokens }
      else
        let r := tokenizeCLoop rest d
        { tokens := stringPieces v ++ r.tokens, html_tokens := r.html_tokens }
    else if ty = "Template" then
      let u := unwrapTemplate v
      if isHTML u then
        let r := tokenizeCLoop rest d
        { tokens := r.tokens, html_tokens := u :: r.html_tokens }
      else
        let r := tokenizeCLoop rest d
        { tokens := templatePieces v ++ r.tokens, html_tokens := r.html_tokens }
    else
      -- the source runs the transform here but pushes the value captured
      -- before it: const value = String(token.value) precedes the call
      let _transformed := applyDelegate d ⟨ty, v⟩
      let r := tokenizeCLoop rest d
      { tokens := v :: r.tokens, html_tokens := r.html_tokens }

/-- Word-token contribution of one stream element in the part_000
tokenizeC, used to characterize the loop as an order-preserving
concatenation. -/
def p0Words (t : P0Tok) : List String :=
  match t with
  | P0Tok.emptyObj => []
  | P0Tok.tok ty v =>
    if ty = "String" then
      if isHTML (unwrapString v) then [] else stringPieces v
    else if ty = "Template" then
      if isHTML (unwrapTemplate v) then [] else templatePieces v
    else [v]

/-- Markup-fragment contribution of one stream element in the part_000
tokenizeC. -/
def p0Html (t : P0Tok) : List String :=
  match t with
  | P0Tok.emptyObj => []
  | P0Tok.tok ty v =>
    if ty = "String" then
      if isHTML (unwrapString v) then [unwrapString v] else []
    else if ty = "Template" then
      if isHTML (unwrapTemplate v) then [unwrapTemplate v] else []
    else []

/-- The scanning loop of the tokenizeC in src/src/esprima.ts, over the
Tokenizer stream. It stops at end of stream, at a token with empty value,
and at any token outside the identifier, template, string set; it unwraps
and splits the first String or Template token into piece tokens of the same
type and then stops; an Identifier token is pushed after the transform. -/
def tokenizeCEsLoop : List JsToken → Option (JsToken → JsToken) → List JsToken
  | [], _ => []
  | t :: rest, d =>
    if t.value = "" ∨ ¬(t.type = "Identifier" ∨ t.type = "Template" ∨ t.type = "String") then
      []
    else if t.type = "String" then
      (splitSpaces (unwrapString t.value)).map (fun e => { type := t.type, value := stripQuote e })
    else if t.type = "Template" then
      (splitSpaces (unwrapTemplate t.value)).map (fun e => { type := t.type, value := stripQuote e })
    else
      applyDelegate d t :: tokenizeCEsLoop rest d

/-- Options recognized by the dispatch layer. A field is none when the
option is absent or not of the checked type, matching the typeof guards in
the source. -/
structure Options where
  comment : Option Bool := none
  attachComment : Option Bool := none
  tokens : Option Bool := none
  tolerant : Option Bool := none
  jsx : Option Bool := none
  sourceType : Option String := none
deriving DecidableEq, Repr

/-- Reserved words recognized by the scanner model, classified as keyword
tokens rather than identifiers. -/
def keywords : List String :=
  ["const", "var", "let", "function", "return", "if", "else", "for", "while",
   "do", "new", "typeof", "class", "import", "export", "default", "in", "of",
   "case", "switch", "this", "void", "delete", "try", "catch", "finally",
   "throw", "instanceof", "yield", "await"]

/-- Identifier start character of the scanner model: ASCII letter,
underscore or dollar. -/
def isIdentStart (c : Char) : Bool :=
  c.isAlpha || c == '_' || c == '$'

/-- Identifier continuation character of the scanner model. -/
def isIdentCont (c : Char) : Bool :=
  isIdentStart c || c.isDigit

/-- A recorded diagnostic, as the spec defines it. -/
structure ParseError where
  message : String
  index : Nat
  line : Nat
  column : Nat
deriving DecidableEq, Repr

/-- Modelled from the spec: the body scan of a quoted string literal, per
the scanner contract of spec section 4.1 (string literals with
escape-sequence handling; malformed tokens raise a lexical error). It
consumes characters up to the closing quote, keeping raw escape pairs in
the value (a backslash always consumes the following character), and
returns the body together with the input after the closing quote. It fails
on end of input and on a bare line terminator: the unterminated-string
lexical error. -/
def scanStringBody (q : Char) : List Char → Option (List Char × List Char)
  | [] => none
  | c :: rest =>
    if c == q then some ([], rest)
    else if c == '\n' || c == '\r' then none
    else if c == backslash then
      match rest with
      | [] => none
      | e :: rest2 =>
        match scanStringBody q rest2 with
        | none => none
        | some (body, after) => some (c :: e :: body, after)
    else
      match scanStringBody q rest with
      | none => none
      | some (body, after) => some (c :: body, after)

/-- Modelled from the spec: one scanning pass of the CustomTokenizer, which
is imported by src/unnamed/part_000 but absent from src/. Per the spec the
scanner skips whitespace and produces tokens in source order, and the
classifier operates on the stream restricted to identifier, template and
string tokens; tokens outside that set surface as the empty objects the
part_000 loop skips. The pass returns the tokens produced before end of
input or before the first lexical error, together with that error when
there is one (spec sections 4.1 and 4.2: a malformed token raises a
lexical error through the ErrorHandler at the offending position). The
modelled error carries the source index of the offending token; line and
column tracking is not modelled beyond that index. In tolerant mode the
real scanner may record the error and resynchronize; the model
conservatively ends the stream at the first error, and no claim depends on
post-error recovery. The lexical subset covered: ASCII identifiers and
keywords, single- or double-quoted strings with raw escape pairs (the
token value keeps its wrapping quotes, which the classifier cuts), and one
empty object per other character. The fuel argument bounds iterations;
every iteration consumes at least one character, so the length of the
input is sufficient fuel. -/
def scanAux : Nat → Nat → List Char → List P0Tok × Option ParseError
  | 0, _, _ => ([], none)
  | _, _, [] => ([], none)
  | fuel + 1, pos, c :: rest =>
    if c == ' ' || c == '\t' || c == '\n' || c == '\r' then
      scanAux fuel (pos + 1) rest
    else if isIdentStart c then
      let w := c :: rest.takeWhile isIdentCont
      let r := rest.dropWhile isIdentCont
      let word := String.mk w
      let next := scanAux fuel (pos + w.length) r
      ((if keywords.contains word then P0Tok.emptyObj else P0Tok.tok "Identifier" word)
        :: next.1, next.2)
    else if c == squote || c == dquote then
      match scanStringBody c rest with
      | none =>
        ([], some { message := "Unterminated string literal",
                    index := pos, line := 1, column := pos })
      | some (body, after) =>
        let next := scanAux fuel (pos + body.length + 2) after
        (P0Tok.tok "String" (String.mk (c :: body ++ [c])) :: next.1, next.2)
    else
      let next := scanAux fuel (pos + 1) rest
      (P0Tok.emptyObj :: next.1, next.2)

/-- Modelled from the spec: the CustomTokenizer outcomes for a source
string: the token stream up to end of input or up to the first lexical
error, and that error when there is one, see scanAux. -/
def customScan (code : String) : List P0Tok × Option ParseError :=
  scanAux code.toList.length 0 code.toList

/-- The full result of the part_000 tokenizeC: the object with the tokens
and html_tokens fields; the errors list the source attaches to the tokens
array in tolerant mode is the tokensErrors field here. -/
structure CResultT where
  tokens : List String
  tokensErrors : Option (List ParseError)
  html_tokens : List String
deriving DecidableEq, Repr

/-- The tokenizeC of src/unnamed/part_000 as a function of the source
string: the CustomTokenizer stream fed through the classification loop
inside the try block. A lexical error escaping getNextToken ends the loop
with the tokens collected so far and is caught and handed to
errorHandler.tolerate: in tolerant mode it is recorded and the errors list
is attached to the tokens array, and the call returns the two-field
object; otherwise tolerate re-raises it and the call returns nothing. -/
def tokenizeC (code : String) (options : Options) (d : Option (JsToken → JsToken)) :
    Except ParseError CResultT :=
  match (customScan code).2 with
  | some e =>
    if options.tolerant == some true then
      Except.ok { tokens := (tokenizeCLoop (customScan code).1 d).tokens,
                  tokensErrors := some [e],
                  html_tokens := (tokenizeCLoop (customScan code).1 d).html_tokens }
    else
      Except.error e
  | none =>
    Except.ok { tokens := (tokenizeCLoop (customScan code).1 d).tokens,
                tokensErrors := if options.tolerant == some true then some [] else none,
                html_tokens := (tokenizeCLoop (customScan code).1 d).html_tokens }

/-- The value returned by tokenize: the scanned token list, carrying an
errors list exactly when one was attached. -/
structure TokenizeResult where
  tokens : List JsToken
  errors : Option (List ParseError)
deriving DecidableEq, Repr

/-- Modelled from the spec: the observable behaviour of one Tokenizer plus
ErrorHandler instance, both absent from src/. emitted is the sequence of
tokens getNextToken returns before the end of input or before a lexical
error escapes; thrown is that escaping error when there is one; recorded is
the ordered list of errors the handler accumulated in tolerant mode;
tolerant is the mode selected from the options. -/
structure TokenizerModel where
  emitted : List JsToken
  thrown : Option ParseError
  recorded : List ParseError
  tolerant : Bool

/-- The tokenize of both esprima.ts variants over a tokenizer model: each
token is passed through the optional transform and pushed in order; an
escaping error is caught and handed to errorHandler.tolerate, which records
it in tolerant mode and re-raises it otherwise; the errors list is attached
exactly when the handler is tolerant. -/
def tokenize (tm : TokenizerModel) (d : Option (JsToken → JsToken)) :
    Except ParseError TokenizeResult :=
  let ts := tm.emitted.map (applyDelegate d)
  match tm.thrown with
  | some e =>
    if tm.tolerant then
      Except.ok { tokens := ts, errors := some (tm.recorded ++ [e]) }
    else
      Except.error e
  | none =>
    Except.ok { tokens := ts, errors := if tm.tolerant then some tm.recorded else none }

/-- A comment record, only needed as an opaque payload of the dispatch
layer here. -/
structure Comment where
  kind : String
  text : String
  rangeStart : Nat
  rangeEnd : Nat
deriving DecidableEq, Repr

/-- The outcome of running the (absent) Parser or JSXParser on a source:
the program payload plus the token list, error list and comment list the
dispatch layer may attach to it. -/
structure ParserRun (α : Type) where
  program : α
  tokens : List JsToken
  errors : List ParseError
  comments : List Comment

/-- Signature of the parser behaviour the dispatch layer is parameterized
over: source, the options object as passed to the constructor, the jsx
flag selecting JSXParser, the isModule flag selecting parseModule versus
parseScript, and the delegate. -/
def ParserSig (α δ : Type) : Type :=
  String → Option Options → Bool → Bool → Option δ → ParserRun α

/-- The value parse returns: the program with the optional comments, tokens
and errors attachments. -/
structure ParseResult (α : Type) where
  ast : α
  comments : Option (List Comment)
  tokens : Option (List JsToken)
  errors : Option (List ParseError)

/-- The parse of both esprima.ts variants (their texts agree), over an
abstract parser behaviour P. The second component of the result is the
state of the caller-supplied options object after the call, modelling the
in-place mutation of options.comment. The config.tokens and config.tolerant
flags of the absent Parser are modelled from the spec as the tokens and
tolerant options. The visitor composition with the comment visitor happens
inside the absent Parser and CommentHandler; it does not affect the fields
modelled here. -/
def parse {α δ : Type} (P : ParserSig α δ) (code : String)
    (options : Option Options) (delegate : Option δ) :
    ParseResult α × Option Options :=
  let collectComment : Bool := match options with
    | some o => o.comment == some true
    | none => false
  let attachComment : Bool := match options with
    | some o => o.attachComment == some true
    | none => false
  let options1 := if collectComment || attachComment then
      options.map (fun o => { o with comment := some true })
    else options
  let isModule : Bool := match options1 with
    | some o => o.sourceType == some "module"
    | none => false
  let jsx : Bool := match options1 with
    | some o => o.jsx == some true
    | none => false
  let run := P code options1 jsx isModule delegate
  let configTokens : Bool := match options1 with
    | some o => o.tokens == some true
    | none => false
  let configTolerant : Bool := match options1 with
    | some o => o.tolerant == some true
    | none => false
  ({ ast := run.program,
     comments := if collectComment then some run.comments else none,
     tokens := if configTokens then some run.tokens else none,
     errors := if configTolerant then some run.errors else none },
   options1)

/-- The parseModule of both esprima.ts variants: default the options object
when null, overwrite its sourceType with module in place, delegate to
parse. -/
def parseModule {α δ : Type} (P : ParserSig α δ) (code : String)
    (options : Option Options) (delegate : Option δ) :
    ParseResult α × Option Options :=
  let parsingOptions := options.getD {}
  parse P code (some { parsingOptions with sourceType := some "module" }) delegate

/-- The parseScript of both esprima.ts variants: default the options object
when null, overwrite its sourceType with script in place, delegate to
parse. -/
def parseScript {α δ : Type} (P : ParserSig α δ) (code : String)
    (options : Option Options) (delegate : Option δ) :
    ParseResult α × Option Options :=
  let parsingOptions := options.getD {}
  parse P code (some { parsingOptions with sourceType := some "script" }) delegate

theorem tokenizeCLoop_eq_flatMap (s : List P0Tok) (d : Option (JsToken → JsToken)) :
    tokenizeCLoop s d = { tokens := s.flatMap p0Words, html_tokens := s.flatMap p0Html } := by
  induction s with
  | nil => rfl
  | cons t rest ih =>
    cases t with
    | emptyObj =>
      simp only [tokenizeCLoop, List.flatMap_cons, p0Words, p0Html, List.nil_append]
      exact ih
    | tok ty v =>
      simp only [tokenizeCLoop, List.flatMap_cons, p0Words, p0Html, ih]
      split_ifs <;> simp

theorem p0Html_isHTML (t : P0Tok) (h : String) (hm : h ∈ p0Html t) : isHTML h = true := by
  cases t with
  | emptyObj => simp [p0Html] at hm
  | tok ty v =>
    simp only [p0Html] at hm
    split_ifs at hm <;> simp_all

theorem tokenizeC_ok_eq (code : String) (opts : Options) (d : Option (JsToken → JsToken))
    (r : CResultT) (hok : tokenizeC code opts d = Except.ok r) :
    r.tokens = (customScan code).1.flatMap p0Words
      ∧ r.html_tokens = (customScan code).1.flatMap p0Html
      ∧ (r.tokensErrors.isSome = true ↔ opts.tolerant = some true) := by
  unfold tokenizeC at hok
  rcases hscan : (customScan code).2 with _ | e <;> rw [hscan] at hok
  · simp only [Except.ok.injEq] at hok
    subst hok
    refine ⟨?_, ?_, ?_⟩
    · rw [tokenizeCLoop_eq_flatMap]
    · rw [tokenizeCLoop_eq_flatMap]
    · by_cases htol : opts.tolerant = some true
      · simp [htol]
      · simp [htol, beq_eq_false_iff_ne.mpr htol]
  · by_cases htol : opts.tolerant = some true
    · have hb : (opts.tolerant == some true) = true := beq_iff_eq.mpr htol
      simp only [hb, if_true, Except.ok.injEq] at hok
      subst hok
      refine ⟨?_, ?_, ?_⟩
      · rw [tokenizeCLoop_eq_flatMap]
      · rw [tokenizeCLoop_eq_flatMap]
      · simp [htol]
    · have hb : (opts.tolerant == some true) = false := beq_eq_false_iff_ne.mpr htol
      simp [hb] at hok

/-- C1: whenever tokenizeC returns normally, it returns the object with the
tokens and html_tokens fields: tokens is the ordered concatenation of the
word-token contributions of the scanned stream, html_tokens the ordered
concatenation of the markup-fragment contributions, every fragment being
accepted by the markup predicate, and the errors list is attached to the
tokens array exactly when the tolerant option is set. The return is normal
for every lexically valid source and for every source in tolerant mode;
when a lexical error escapes the tokenizer in non-tolerant mode, tolerate
re-raises it and tokenizeC returns no object at all. -/
theorem C1_tokenizeC_shape :
    (∀ (code : String) (opts : Options) (d : Option (JsToken → JsToken)) (r : CResultT),
      tokenizeC code opts d = Except.ok r →
      r.tokens = (customScan code).1.flatMap p0Words
        ∧ r.html_tokens = (customScan code).1.flatMap p0Html
        ∧ (r.tokensErrors.isSome = true ↔ opts.tolerant = some true)) ∧
    (∀ (code : String) (opts : Options) (d : Option (JsToken → JsToken)) (r : CResultT)
        (h : String),
      tokenizeC code opts d = Except.ok r → h ∈ r.html_tokens → isHTML h = true) ∧
    (∀ (code : String) (opts : Options) (d : Option (JsToken → JsToken)) (e : ParseError),
      (customScan code).2 = some e → opts.tolerant ≠ some true →
      tokenizeC code opts d = Except.error e) := by
  refine ⟨fun code opts d r hok => tokenizeC_ok_eq code opts d r hok, ?_, ?_⟩
  · intro code opts d r h hok hm
    obtain ⟨-, hh, -⟩ := tokenizeC_ok_eq code opts d r hok
    rw [hh] at hm
    simp only [List.mem_flatMap] at hm
    obtain ⟨t, -, ht⟩ := hm
    exact p0Html_isHTML t h ht
  · intro code opts d e hscan htol
    have hb : (opts.tolerant == some true) = false := beq_eq_false_iff_ne.mpr htol
    unfold tokenizeC
    rw [hscan]
    simp [hb]

/-- Witness for C1: at the lexically valid source of the spec example the
call returns normally and the produced markup fragment foo bar is accepted
by the predicate; at an unterminated string literal in non-tolerant mode
the call raises the lexical error instead of returning an object. -/
theorem C1_tokenizeC_shape_witness :
    isHTML "foo bar" = true ∧
    tokenizeC "\x27abc" {} none
      = Except.error { message := "Unterminated string literal",
                       index := 0, line := 1, column := 0 } :=
  ⟨C1_tokenizeC_shape.2.1 "const x = \x27foo bar\x27" {} none
      { tokens := ["x"], tokensErrors := none, html_tokens := ["foo bar"] } "foo bar"
      (by rfl) (by decide),
   C1_tokenizeC_shape.2.2 "\x27abc" {} none
      { message := "Unterminated string literal", index := 0, line := 1, column := 0 }
      (by rfl) (by decide)⟩

/-- C2: evaluation of the markup predicate at the three texts of the claim.
The first two classify as markup as the claim states; the third also
classifies as markup, against the claim, because the unparenthesized
alternation in the compiled pattern lets the bare tag name html match as a
substring of not html. -/
theorem C2_isHTML_eval :
    isHTML "<DIV>x</DIV>" = true ∧ isHTML "<div>x</div>" = true
      ∧ isHTML "not html" = true := by
  decide

/-- C3: the classification pass is total on every token stream, in both
variants, and a malformed string token value with no delimiters at all is
handled by index clamping: the empty value yields the single empty word
piece rather than a failure. -/
theorem C3_tokenizeC_total :
    (∀ (s : List P0Tok) (d : Option (JsToken → JsToken)),
      ∃ ts hs, tokenizeCLoop s d = { tokens := ts, html_tokens := hs }) ∧
    (∀ (s : List JsToken) (d : Option (JsToken → JsToken)),
      ∃ out, tokenizeCEsLoop s d = out) ∧
    tokenizeCLoop [P0Tok.tok "String" ""] none = { tokens := [""], html_tokens := [] } :=
  ⟨fun s d => ⟨(tokenizeCLoop s d).tokens, (tokenizeCLoop s d).html_tokens, rfl⟩,
   fun s d => ⟨tokenizeCEsLoop s d, rfl⟩,
   by decide⟩

/-- C6: evaluation of tokenizeC at the source of the spec example, which is
lexically valid, so the call returns normally. The string literal body
foo bar is routed whole into the markup fragments because the broken
alternation of the markup pattern accepts any text containing the
single-letter tag b; the claimed word tokens foo and bar are not produced,
and the only word token comes from the identifier x. -/
theorem C6_const_foo_bar_eval :
    tokenizeC "const x = \x27foo bar\x27" {} none
      = Except.ok { tokens := ["x"], tokensErrors := none, html_tokens := ["foo bar"] } := by
  rfl

/-- C10: in the part_000 variant the transform result is discarded for
every token, so the output is independent of the transform; and a token
outside the string and template branches contributes exactly its
pre-captured value to the word tokens. -/
theorem C10_pretransform_value :
    (∀ (s : List P0Tok) (d : Option (JsToken → JsToken)),
      tokenizeCLoop s d = tokenizeCLoop s none) ∧
    (∀ (ty v : String) (rest : List P0Tok) (d : Option (JsToken → JsToken)),
      ty ≠ "String" → ty ≠ "Template" →
      (tokenizeCLoop (P0Tok.tok ty v :: rest) d).tokens
        = v :: (tokenizeCLoop rest d).tokens) := by
  constructor
  · intro s d
    rw [tokenizeCLoop_eq_flatMap, tokenizeCLoop_eq_flatMap]
  · intro ty v rest d h1 h2
    simp [tokenizeCLoop, if_neg h1, if_neg h2]

/-- Witness for C10: a transform that rewrites every token value does not
change the emitted word token of an identifier. -/
theorem C10_pretransform_value_witness :
    (tokenizeCLoop [P0Tok.tok "Identifier" "x"]
        (some fun t => { type := t.type, value := "CHANGED" })).tokens = ["x"] := by
  have h := C10_pretransform_value.2 "Identifier" "x" []
    (some fun t => { type := t.type, value := "CHANGED" }) (by decide) (by decide)
  exact h.trans rfl

theorem jsSlice_one_pred (l : List Char) :
    jsSlice (String.mk l) 1 ((l.length : Int) - 1) = String.mk (l.dropLast.drop 1) := by
  rcases l with _ | ⟨c, cs⟩
  · rfl
  · have ha : jsIndex (c :: cs).length 1 = 1 := by
      simp only [jsIndex, List.length_cons]
      split <;> omega
    have hb : jsIndex (c :: cs).length (((c :: cs).length : Int) - 1) = cs.length := by
      simp only [jsIndex, List.length_cons]
      split <;> omega
    show String.mk (((c :: cs).take (jsIndex (c :: cs).length (((c :: cs).length : Int) - 1))).drop
        (jsIndex (c :: cs).length 1)) = String.mk ((c :: cs).dropLast.drop 1)
    rw [ha, hb]
    congr 1
    rw [List.dropLast_eq_take]
    simp

/-- C4 counterexample: the string literal token with source text
double-quote, single-quote, x, y, space, z, w, double-quote. Its unwrapped
body splits into the pieces quote-x-y and z-w; the first piece starts with
a quote, and the code emits x for it: the trailing non-quote character y is
removed along with the leading quote, so the emitted piece is neither the
piece with its quote characters removed (xy) nor the piece itself. -/
theorem C4_quote_strip_cex :
    tokenizeCLoop [P0Tok.tok "String" "\x22\x27xy zw\x22"] none
      = { tokens := ["x", "zw"], html_tokens := [] }
    ∧ ¬("x" = "xy" ∨ "x" = "\x27xy") := by
  decide

/-- C4 amended: for a string or template literal not classified as markup,
the unwrapped text is split on single spaces and each piece is emitted in
source order after the stripping passes; the quote-stripping pass removes,
from a piece whose first character is a quote character, its first
character and its last character, the last regardless of whether it is a
quote (and the String branch then strips one leading dot or hash). -/
theorem C4_piece_stripping :
    (∀ (v : String) (rest : List P0Tok) (d : Option (JsToken → JsToken)),
      isHTML (unwrapString v) = false →
      tokenizeCLoop (P0Tok.tok "String" v :: rest) d =
        { tokens := stringPieces v ++ (tokenizeCLoop rest d).tokens,
          html_tokens := (tokenizeCLoop rest d).html_tokens }) ∧
    (∀ (v : String) (rest : List P0Tok) (d : Option (JsToken → JsToken)),
      isHTML (unwrapTemplate v) = false →
      tokenizeCLoop (P0Tok.tok "Template" v :: rest) d =
        { tokens := templatePieces v ++ (tokenizeCLoop rest d).tokens,
          html_tokens := (tokenizeCLoop rest d).html_tokens }) ∧
    (∀ (c : Char) (cs : List Char), c = squote ∨ c = dquote →
      stripQuote (String.mk (c :: cs)) = String.mk cs.dropLast) := by
  refine ⟨?_, ?_, ?_⟩
  · intro v rest d h
    simp [tokenizeCLoop, h]
  · intro v rest d h
    simp [tokenizeCLoop, h]
  · intro c cs h
    have hcond : substring01 (String.mk (c :: cs)) = String.mk [squote]
        ∨ substring01 (String.mk (c :: cs)) = String.mk [dquote] := by
      rcases h with h | h <;> subst h
      · exact Or.inl rfl
      · exact Or.inr rfl
    rw [stripQuote, if_pos hcond]
    have hs := jsSlice_one_pred (c :: cs)
    exact hs.trans (by rcases cs with _ | ⟨x, xs⟩ <;> simp)

/-- Witness for C4: applying the amended theorem at the literal of the
counterexample and at the piece quote-x-y. -/
theorem C4_piece_stripping_witness :
    tokenizeCLoop [P0Tok.tok "String" "\x22\x27xy zw\x22"] none
      = { tokens := stringPieces "\x22\x27xy zw\x22" ++ (tokenizeCLoop [] none).tokens,
          html_tokens := (tokenizeCLoop [] none).html_tokens }
    ∧ stripQuote (String.mk [squote, 'x', 'y']) = String.mk (['x', 'y'].dropLast) :=
  ⟨C4_piece_stripping.1 "\x22\x27xy zw\x22" [] none (by decide),
   C4_piece_stripping.2.2 squote ['x', 'y'] (Or.inl rfl)⟩

/-- C5 counterexample: a stream holding only tokens inside the identifier,
template, string set (a string literal with body dot-f-o-o, then an
identifier), on which a policy difference restricted to tokens outside the
set could not separate the variants; yet the esprima.ts variant emits the
single piece dot-foo and stops before the identifier, while the part_000
variant strips the leading dot and continues, emitting foo and then x. -/
theorem C5_variants_cex :
    (∀ t ∈ ([{ type := "String", value := "\x27.foo\x27" },
             { type := "Identifier", value := "x" }] : List JsToken),
        (t.type = "Identifier" ∨ t.type = "Template" ∨ t.type = "String") ∧ t.value ≠ "") ∧
    (tokenizeCEsLoop [{ type := "String", value := "\x27.foo\x27" },
        { type := "Identifier", value := "x" }] none).map JsToken.value = [".foo"] ∧
    (tokenizeCLoop [P0Tok.tok "String" "\x27.foo\x27", P0Tok.tok "Identifier" "x"] none).tokens
      = ["foo", "x"] ∧
    ([".foo"] : List String) ≠ ["foo", "x"] := by
  decide

/-- C5 amended: the esprima.ts variant stops scanning at the first token
outside the identifier, template, string set (or with an empty value) and
also stops after processing the first string or template token, while the
part_000 variant never stops early: its outputs are the concatenations of
the per-token contributions over the whole stream. The variants further
differ in the selector-prefix stripping and in the shape of the emitted
elements, as the counterexample exhibits. -/
theorem C5_variant_policies :
    (∀ (t : JsToken) (rest : List JsToken) (d : Option (JsToken → JsToken)),
      ¬(t.type = "Identifier" ∨ t.type = "Template" ∨ t.type = "String") →
      tokenizeCEsLoop (t :: rest) d = []) ∧
    (∀ (t : JsToken) (rest : List JsToken) (d : Option (JsToken → JsToken)),
      t.type = "String" ∨ t.type = "Template" →
      tokenizeCEsLoop (t :: rest) d = tokenizeCEsLoop [t] d) ∧
    (∀ (s : List P0Tok) (d : Option (JsToken → JsToken)),
      tokenizeCLoop s d =
        { tokens := s.flatMap p0Words, html_tokens := s.flatMap p0Html }) := by
  refine ⟨?_, ?_, fun s d => tokenizeCLoop_eq_flatMap s d⟩
  · intro t rest d h
    simp [tokenizeCEsLoop, h]
  · intro t rest d h
    by_cases hv : t.value = ""
    · simp [tokenizeCEsLoop, hv]
    · rcases h with h | h <;> simp [tokenizeCEsLoop, hv, h]

/-- Witness for C5: the esprima.ts loop stops at a punctuator, and its
result on a stream beginning with a string token equals its result on that
string token alone. -/
theorem C5_variant_policies_witness :
    tokenizeCEsLoop [{ type := "Punctuator", value := "=" },
        { type := "Identifier", value := "x" }] none = [] ∧
    tokenizeCEsLoop [{ type := "String", value := "\x27a b\x27" },
        { type := "Identifier", value := "y" }] none
      = tokenizeCEsLoop [{ type := "String", value := "\x27a b\x27" }] none :=
  ⟨C5_variant_policies.1 { type := "Punctuator", value := "=" }
      [{ type := "Identifier", value := "x" }] none (by decide),
   C5_variant_policies.2.1 { type := "String", value := "\x27a b\x27" }
      [{ type := "Identifier", value := "y" }] none (Or.inl rfl)⟩

/-- C7: whenever tokenize returns normally, it returns the scanned tokens
in order, each through the optional transform, and the result carries an
errors list exactly when the tolerant option selected the tolerant
handler. -/
theorem C7_tokenize_errors_iff_tolerant :
    ∀ (tm : TokenizerModel) (d : Option (JsToken → JsToken)) (r : TokenizeResult),
      tokenize tm d = Except.ok r →
      r.tokens = tm.emitted.map (applyDelegate d)
        ∧ (r.errors.isSome = true ↔ tm.tolerant = true) := by
  intro tm d r h
  cases htm : tm.thrown with
  | none =>
    cases htol : tm.tolerant <;>
      simp [tokenize, htm, htol] at h <;> simp [← h, htol]
  | some e =>
    cases htol : tm.tolerant <;> simp [tokenize, htm, htol] at h
    simp [← h, htol]

/-- Witness for C7: a tolerant run with one identifier token and no errors
returns that token and carries the (empty) errors list. -/
theorem C7_tokenize_errors_iff_tolerant_witness :
    ({ tokens := [{ type := "Identifier", value := "x" }], errors := some [] }
        : TokenizeResult).tokens
      = [({ type := "Identifier", value := "x" } : JsToken)].map (applyDelegate none)
    ∧ (({ tokens := [{ type := "Identifier", value := "x" }], errors := some [] }
        : TokenizeResult).errors.isSome = true ↔ true = true) :=
  C7_tokenize_errors_iff_tolerant
    { emitted := [{ type := "Identifier", value := "x" }], thrown := none,
      recorded := [], tolerant := true }
    none _ rfl

/-- C8: parseModule and parseScript return exactly what parse returns on
the same source and delegate with the options object (defaulted to the
empty object when null) whose sourceType is overwritten to module,
respectively script. -/
theorem C8_parseModule_parseScript_delegate :
    ∀ (α δ : Type) (P : ParserSig α δ) (code : String)
      (options : Option Options) (d : Option δ),
      parseModule P code options d
        = parse P code (some { options.getD {} with sourceType := some "module" }) d
      ∧ parseScript P code options d
        = parse P code (some { options.getD {} with sourceType := some "script" }) d := by
  intro α δ P code options d
  exact ⟨rfl, rfl⟩

/-- C9: the dispatch layer mutates the caller-supplied options object:
parse overwrites its comment field to true whenever attachComment is
requested, parseModule and parseScript overwrite its sourceType in place,
and on an options object requesting attachComment the object after the
call differs from the object before it. -/
theorem C9_options_mutation :
    (∀ (α δ : Type) (P : ParserSig α δ) (code : String) (o : Options) (d : Option δ),
      o.attachComment = some true →
      (parse P code (some o) d).2 = some { o with comment := some true }) ∧
    (∀ (α δ : Type) (P : ParserSig α δ) (code : String) (o : Options) (d : Option δ),
      ∃ o2, (parseModule P code (some o) d).2 = some o2 ∧ o2.sourceType = some "module") ∧
    (∀ (α δ : Type) (P : ParserSig α δ) (code : String) (o : Options) (d : Option δ),
      ∃ o2, (parseScript P code (some o) d).2 = some o2 ∧ o2.sourceType = some "script") ∧
    (∀ (α δ : Type) (P : ParserSig α δ) (code : String) (d : Option δ),
      (parse P code (some { attachComment := some true, sourceType := some "script" }) d).2
        ≠ some { attachComment := some true, sourceType := some "script" }) := by
  refine ⟨?_, ?_, ?_, ?_⟩
  · intro α δ P code o d h
    simp [parse, h]
  · intro α δ P code o d
    simp only [parseModule, parse]
    split
    · exact ⟨_, rfl, rfl⟩
    · exact ⟨_, rfl, rfl⟩
  · intro α δ P code o d
    simp only [parseScript, parse]
    split
    · exact ⟨_, rfl, rfl⟩
    · exact ⟨_, rfl, rfl⟩
  · intro α δ P code d
    simp [parse]

/-- Witness for C9: a concrete parse call on an options object with
attachComment requested leaves the object with comment overwritten to
true. -/
theorem C9_options_mutation_witness :
    (parse (fun _ _ _ _ _ => ParserRun.mk () [] [] ([] : List Comment))
        "" (some { attachComment := some true }) (none : Option Unit)).2
      = some { attachComment := some true, comment := some true } :=
  C9_options_mutation.1 Unit Unit _ "" _ none rfl
